import Mathlib

/-!
Verification of the JSON:API request parser (rest_framework_json_api/parsers.py).

The development contains two embeddings of the parser:

* a pure value-level embedding (types JVal, functions named after the source
  methods of class JSONParser), used for the functional and error-handling
  claims; Python dictionaries are association lists, Python exceptions are an
  explicit PyErr error type carried by Except, and the two external
  collaborators (the settings.JSON_API_FORMAT_KEYS key translator
  utils.format_keys and the endpoint resource-name lookup
  utils.get_resource_name) are passed in as parameters;

* a heap embedding (types HVal, Heap, functions suffixed with H), in which
  every Python dictionary is an addressed, mutable heap object, used for the
  claims about object identity and reference sharing of the compound-document
  resolver.
-/

/-- A decoded JSON value, as produced by the JSON decoder that
rest_framework.parsers.JSONParser hands to the code under verification.
Python maps JSON null to None, objects to dict, arrays to list. -/
inductive JVal where
  | str (s : String)
  | num (n : Int)
  | bool (b : Bool)
  | null
  | obj (kvs : List (String × JVal))
  | arr (xs : List JVal)

mutual

/-- Structural equality of JSON values: the semantics of the Python
comparison operators on decoded JSON data. -/
def JVal.beq : JVal → JVal → Bool
  | .str a, .str b => a == b
  | .num a, .num b => a == b
  | .bool a, .bool b => a == b
  | .null, .null => true
  | .obj a, .obj b => beqObj a b
  | .arr a, .arr b => beqArr a b
  | _, _ => false

def beqObj : List (String × JVal) → List (String × JVal) → Bool
  | [], [] => true
  | (k1, v1) :: r1, (k2, v2) :: r2 => k1 == k2 && JVal.beq v1 v2 && beqObj r1 r2
  | _, _ => false

def beqArr : List JVal → List JVal → Bool
  | [], [] => true
  | v1 :: r1, v2 :: r2 => JVal.beq v1 v2 && beqArr r1 r2
  | _, _ => false

end

/-- Python truthiness of a decoded JSON value (the semantics of
Python `if not x`). -/
def truthy : JVal → Bool
  | .str s => s != ""
  | .num n => n != 0
  | .bool b => b
  | .null => false
  | .obj kvs => !kvs.isEmpty
  | .arr xs => !xs.isEmpty

/-- The exceptions the parser code can raise.  keyError, typeError and
attributeError are the corresponding Python built-ins (typeError also stands
in for the ValueError of dict.update on a non-mapping); parseError is
rest_framework.exceptions.ParseError, the MalformedDocument error of the
spec; conflict is rest_framework_json_api exceptions.Conflict, the
ResourceTypeConflict error of the spec. -/
inductive PyErr where
  | keyError
  | typeError
  | attributeError
  | parseError (msg : String)
  | conflict (msg : String)
deriving DecidableEq, Repr

/-- Python dict key lookup on an association list (d.get(k) / k in d). -/
def pyLookup (d : List (String × JVal)) (k : String) : Option JVal :=
  (d.find? (fun p => p.1 == k)).map (fun p => p.2)

/-- Python dict assignment d[k] = v: replaces the value at an existing key in
place, appends a new key at the end (dict insertion order). -/
def pyInsert (d : List (String × JVal)) (k : String) (v : JVal) : List (String × JVal) :=
  match d with
  | [] => [(k, v)]
  | (k0, v0) :: rest => if k0 == k then (k, v) :: rest else (k0, v0) :: pyInsert rest k v

/-- Equality of Python (type, id) tuple keys of the included map. -/
def beqKey (a b : JVal × JVal) : Bool :=
  JVal.beq a.1 b.1 && JVal.beq a.2 b.2

/-- The included map: a Python dict keyed by (type, id) tuples. -/
abbrev IncMap := List ((JVal × JVal) × JVal)

/-- Lookup in the (type, id)-keyed included map (included_map.get((t, i))). -/
def lookupIdent (m : IncMap) (t i : JVal) : Option JVal :=
  (m.find? (fun p => beqKey p.1 (t, i))).map (fun p => p.2)

/-- Assignment included_map[t, i] = v, with Python dict semantics. -/
def insertIdent (m : IncMap) (k : JVal × JVal) (v : JVal) : IncMap :=
  match m with
  | [] => [(k, v)]
  | (k0, v0) :: rest => if beqKey k0 k then (k, v) :: rest else (k0, v0) :: insertIdent rest k v

/-- Python x.get(k): returns None (JSON null) for a missing key and raises
AttributeError when x is not a dict. -/
def pyGetAttr (v : JVal) (k : String) : Except PyErr JVal :=
  match v with
  | .obj kvs => .ok ((pyLookup kvs k).getD .null)
  | _ => .error .attributeError

/-- Python x[k] subscription with a string key: KeyError when the key is
missing from a dict, TypeError when x is not a dict. -/
def pyIndex (v : JVal) (k : String) : Except PyErr JVal :=
  match v with
  | .obj kvs =>
    match pyLookup kvs k with
    | some w => .ok w
    | none => .error .keyError
  | _ => .error .typeError

/-- Substring containment, the semantics of Python k in s for strings. -/
def strContains (s k : String) : Bool :=
  (s.splitOn k).length > 1

/-- Python k in x for a string key k: key membership on a dict, substring
containment on a string, element membership on a list, TypeError otherwise. -/
def pyContains (v : JVal) (k : String) : Except PyErr Bool :=
  match v with
  | .obj kvs => .ok (pyLookup kvs k).isSome
  | .str s => .ok (strContains s k)
  | .arr xs => .ok (xs.any (fun w => JVal.beq w (.str k)))
  | _ => .error .typeError

/-- Python dict.update(v): folds the entries of a mapping into d, overwriting
keys already present; raises on a non-mapping argument. -/
def pyUpdate (d : List (String × JVal)) (v : JVal) : Except PyErr (List (String × JVal)) :=
  match v with
  | .obj kvs => .ok (kvs.foldl (fun acc q => pyInsert acc q.1 q.2) d)
  | _ => .error .typeError

/-- Replacement of one key of a JSON object value (the value half of the
Python statement fv[k] = w when fv is a dict; identity otherwise). -/
def setKey (v : JVal) (k : String) (w : JVal) : JVal :=
  match v with
  | .obj kvs => .obj (pyInsert kvs k w)
  | _ => v

/-- JSONParser.get_included_object: if the relation carries both a type and an
id member, look the (type, id) pair up in the included map and fall back to
the relation itself on a miss; otherwise return the relation unchanged.  The
non-dict cases render the Python behaviour of the expression
(type in relation and id in relation) followed by relation[type]: substring
or element containment then a TypeError subscript for strings and lists, an
immediate TypeError for the remaining scalars. -/
def get_included_object (imap : IncMap) (rel : JVal) : Except PyErr JVal :=
  match rel with
  | .obj kvs =>
    match pyLookup kvs "type", pyLookup kvs "id" with
    | some t, some i => .ok ((lookupIdent imap t i).getD rel)
    | _, _ => .ok rel
  | .str s =>
    if strContains s "type" && strContains s "id" then .error .typeError else .ok rel
  | .arr xs =>
    if (xs.any (fun w => JVal.beq w (.str "type"))) && (xs.any (fun w => JVal.beq w (.str "id")))
    then .error .typeError else .ok rel
  | _ => .error .typeError

/-- The loop of JSONParser.create_naive_included_map: for each element obj
of included, the assignment included_map[obj[type], obj[id]] = obj. -/
def naive_fold (m : IncMap) : List JVal → Except PyErr IncMap
  | [] => .ok m
  | o :: rest => do
    let t ← pyIndex o "type"
    let i ← pyIndex o "id"
    naive_fold (insertIdent m (t, i) o) rest

/-- JSONParser.create_naive_included_map: data.get(included), treated as the
empty collection when falsy, then the naive_fold loop.  Iterating a truthy
non-list (a non-empty dict, a string, a number) ends in a TypeError at the
first subscript, folded here into the single typeError case. -/
def create_naive_included_map (data : JVal) : Except PyErr IncMap := do
  let included ← pyGetAttr data "included"
  if !truthy included then
    pure []
  else
    match included with
    | .arr objs => naive_fold [] objs
    | _ => .error .typeError

/-- One relationship entry of the first pass of
JSONParser.create_included_map: inner_data = field_data.get(data), then the
assignment field_data[data] = get_included_object(naive_map, inner_data) for
a dict linkage, the element-wise replacement for a list linkage, and no
change otherwise. -/
def resolve_entry_data (naive : IncMap) (fv : JVal) : Except PyErr JVal := do
  let inner ← pyGetAttr fv "data"
  match inner with
  | .obj _ => do
    let r ← get_included_object naive inner
    pure (setKey fv "data" r)
  | .arr xs => do
    let rs ← xs.mapM (get_included_object naive)
    pure (setKey fv "data" (.arr rs))
  | _ => pure fv

/-- The first pass of JSONParser.create_included_map for one included object:
walk obj.get(relationships) (skipped when falsy) and rewrite the data member
of every relationship entry.  The source performs this rewrite in place on
the shared dictionaries; this value-level rendering substitutes the
pre-rewrite naive-map entries instead, so it is exact whenever the looked-up
targets carry no relationships of their own.  The heap embedding below
(resolve_objectH) models the in-place mutation itself. -/
def resolve_object (naive : IncMap) (obj : JVal) : Except PyErr JVal := do
  let rels ← pyGetAttr obj "relationships"
  if !truthy rels then
    pure obj
  else
    match rels with
    | .obj fields => do
      let fields2 ← fields.mapM (fun p => do
        let e ← resolve_entry_data naive p.2
        pure (p.1, e))
      pure (setKey obj "relationships" (.obj fields2))
    | _ => .error .attributeError

/-- JSONParser.parse_attributes: data.get(attributes); an empty dict when
falsy, the utils.format_keys translation (the parameter tr) when the
JSON_API_FORMAT_KEYS setting (the parameter fmt) is enabled, and the
attributes value itself otherwise. -/
def parse_attributes (fmt : Bool) (tr : JVal → JVal) (data : JVal) : Except PyErr JVal := do
  let attributes ← pyGetAttr data "attributes"
  if !truthy attributes then
    pure (.obj [])
  else if fmt then
    pure (tr attributes)
  else
    pure attributes

/-- The second pass of JSONParser.create_included_map for one included
object: the flattened result dict, built as an id entry when the id key is
present, then the type entry, then the update with parse_attributes, then
the relationships entry when that key is present. -/
def flatten_included (fmt : Bool) (tr : JVal → JVal) (obj : JVal) : Except PyErr JVal := do
  let hasId ← pyContains obj "id"
  let idv ← pyGetAttr obj "id"
  let base : List (String × JVal) := if hasId then [("id", idv)] else []
  let tyv ← pyGetAttr obj "type"
  let base := pyInsert base "type" tyv
  let attrs ← parse_attributes fmt tr obj
  let base ← pyUpdate base attrs
  let hasRels ← pyContains obj "relationships"
  let base ←
    if hasRels then do
      let rv ← pyIndex obj "relationships"
      pure (pyInsert base "relationships" rv)
    else
      pure base
  pure (JVal.obj base)

/-- JSONParser.create_included_map: the naive map, then the relationship
rewrite over every entry, then the flattening of every entry into the final
included map. -/
def create_included_map (fmt : Bool) (tr : JVal → JVal) (data : JVal) : Except PyErr IncMap := do
  let naive ← create_naive_included_map data
  let naive2 ← naive.mapM (fun p => do
    let o ← resolve_object naive p.2
    pure (p.1, o))
  naive2.mapM (fun p => do
    let f ← flatten_included fmt tr p.2
    pure (p.1, f))

/-- JSONParser.parse_relationships: data.get(relationships), an empty dict
when falsy, translated by tr when fmt is set; then for every field the value
field_data.get(data) is resolved through get_included_object when it is a
dict, element-wise when it is a list, stored as None when it is None (which
is also what .get returns for an absent data member), and dropped otherwise.
Iterating a truthy non-dict relationships value fails as in Python. -/
def parse_relationships (fmt : Bool) (tr : JVal → JVal) (imap : IncMap) (data : JVal) :
    Except PyErr (List (String × JVal)) := do
  let rels0 ← pyGetAttr data "relationships"
  let rels : JVal := if !truthy rels0 then .obj [] else if fmt then tr rels0 else rels0
  match rels with
  | .obj fields =>
    fields.foldlM (fun acc p => do
      let fd ← pyGetAttr p.2 "data"
      match fd with
      | .obj _ => do
        let c ← get_included_object imap fd
        pure (pyInsert acc p.1 c)
      | .arr xs => do
        let cs ← xs.mapM (get_included_object imap)
        pure (pyInsert acc p.1 (.arr cs))
      | .null => pure (pyInsert acc p.1 .null)
      | _ => pure acc) []
  | _ => .error .attributeError

/-- JSONParser.parse_metadata: result.get(meta), wrapped as a _meta entry
when truthy. -/
def parse_metadata (result : JVal) : Except PyErr (List (String × JVal)) := do
  let metadata ← pyGetAttr result "meta"
  if truthy metadata then pure [("_meta", metadata)] else pure []

/-- The value utils.get_resource_name returns for the endpoint: either one
resource name or the list of names of a polymorphic endpoint (the source
distinguishes the two with isinstance against six.string_types). -/
inductive ResName where
  | single (name : String)
  | multi (names : List String)

/-- Python str() of a decoded JSON value, as interpolated by str.format into
the conflict messages; only the scalar cases are ever reached by documents
whose declared type is a JSON scalar. -/
def pyStrOf : JVal → String
  | .str s => s
  | .num n => toString n
  | .bool b => if b then "True" else "False"
  | .null => "None"
  | .obj _ => "<dict>"
  | .arr _ => "<list>"

/-- The formatted Conflict message of the single-name branch of
JSONParser.parse. -/
def conflict_message_single (dataType resourceType : String) : String :=
  "The resource object's type (" ++ dataType ++
    ") is not the type that constitute the collection represented by the endpoint (" ++
    resourceType ++ ")."

/-- The formatted Conflict message of the polymorphic branch of
JSONParser.parse. -/
def conflict_message_multi (dataType : String) (names : List String) : String :=
  "The resource object's type (" ++ dataType ++
    ") is not the type that constitute the collection represented by the endpoint (one of [" ++
    String.intercalate ", " names ++ "])."

/-- The per-object type-consistency check of JSONParser.parse: only for the
methods PUT, POST and PATCH; the single-name branch raises Conflict unless
obj.get(type) equals the name, and the polymorphic branch compares
obj.get(type) against the whole list of names with the Python inequality
operator (the declared type, a JSON value, equals a list of names only when
it is literally that list). -/
def check_resource_type (resourceName : ResName) (method : String) (obj : JVal) :
    Except PyErr Unit := do
  if method == "PUT" || method == "POST" || method == "PATCH" then
    let ty ← pyGetAttr obj "type"
    match resourceName with
    | .single name =>
      if !JVal.beq ty (.str name) then
        .error (.conflict (conflict_message_single (pyStrOf ty) name))
      else
        pure ()
    | .multi names =>
      if !JVal.beq ty (.arr (names.map JVal.str)) then
        .error (.conflict (conflict_message_multi (pyStrOf ty) names))
      else
        pure ()
  else
    pure ()

/-- The per-object record assembly of JSONParser.parse: an id entry when the
id key is present, then the type entry, then the updates with
parse_attributes, parse_relationships and parse_metadata of the top-level
document. -/
def build_record (fmt : Bool) (tr : JVal → JVal) (imap : IncMap)
    (top : List (String × JVal)) (obj : JVal) : Except PyErr JVal := do
  let hasId ← pyContains obj "id"
  let idv ← pyGetAttr obj "id"
  let base : List (String × JVal) := if hasId then [("id", idv)] else []
  let tyv ← pyGetAttr obj "type"
  let base := pyInsert base "type" tyv
  let attrs ← parse_attributes fmt tr obj
  let base ← pyUpdate base attrs
  let rels ← parse_relationships fmt tr imap obj
  let base ← pyUpdate base (.obj rels)
  let meta ← parse_metadata (.obj top)
  let base ← pyUpdate base (.obj meta)
  pure (.obj base)

/-- The relationship-endpoint loop of JSONParser.parse: every resource
identifier object of the list must have a truthy id and a truthy type. -/
def check_rios : List JVal → Except PyErr Unit
  | [] => .ok ()
  | rio :: rest => do
    let idv ← pyGetAttr rio "id"
    let tyv ← pyGetAttr rio "type"
    if !(truthy idv && truthy tyv) then
      .error (.parseError
        "Received data contains one or more malformed JSONAPI Resource Identifier Object(s)")
    else
      check_rios rest

/-- JSONParser.parse.  The externals appear as parameters: fmt and tr are the
JSON_API_FORMAT_KEYS setting and the utils.format_keys underscore
translation, isRelationshipEndpoint is the isinstance check of the view
against RelationshipView, resourceName is the value of
utils.get_resource_name(parser_context, expand_polymorphic_types=True), and
method is request.method.  The argument result is the document the JSON
decoder produced. -/
def parse (fmt : Bool) (tr : JVal → JVal) (isRelationshipEndpoint : Bool)
    (resourceName : ResName) (method : String) (result : JVal) : Except PyErr JVal := do
  match result with
  | .obj top =>
    match pyLookup top "data" with
    | none => .error (.parseError "Received document does not contain primary data")
    | some data =>
      if isRelationshipEndpoint then
        match data with
        | .arr rios => do
          check_rios rios
          pure data
        | _ => do
          let idv ← pyGetAttr data "id"
          let tyv ← pyGetAttr data "type"
          if !(truthy idv && truthy tyv) then
            .error (.parseError "Received data is not a valid JSONAPI Resource Identifier Object")
          else
            pure data
      else do
        let imap ← create_included_map fmt tr result
        match data with
        | .arr objs => do
          objs.forM (check_resource_type resourceName method)
          let parsed ← objs.mapM (build_record fmt tr imap top)
          pure (.arr parsed)
        | _ => do
          check_resource_type resourceName method data
          build_record fmt tr imap top data
  | _ => .error (.parseError "Received document does not contain primary data")

/-!
The heap embedding.  Every Python dictionary is an addressed heap cell, a
reference to a dictionary is an HVal.ref, and the in-place relationship
rewrite of JSONParser.create_included_map is a heap mutation, so that the
object-identity (Python is / ===) facts of the compound-document resolver
can be stated as address equalities.  The JSON_API_FORMAT_KEYS translation
is modelled disabled (False, its Django default) in this embedding; the pure
embedding above models both settings.
-/

/-- A Python value in the heap embedding: scalars, a reference to a heap
dictionary, or a list value (the parser replaces linkage lists wholesale, so
list identity never matters and lists stay structural). -/
inductive HVal where
  | str (s : String)
  | num (n : Int)
  | bool (b : Bool)
  | null
  | ref (a : Nat)
  | list (xs : List HVal)

/-- The contents of one heap dictionary. -/
abbrev HObj := List (String × HVal)

/-- The heap: the dictionary stored at each address (addresses are list
positions; allocation appends). -/
abbrev Heap := List HObj

mutual

/-- Structural equality of heap values; references compare by address, which
is how a Python dict key could only ever collide (and scalar keys compare by
value, as in Python). -/
def HVal.beq : HVal → HVal → Bool
  | .str a, .str b => a == b
  | .num a, .num b => a == b
  | .bool a, .bool b => a == b
  | .null, .null => true
  | .ref a, .ref b => a == b
  | .list a, .list b => beqListH a b
  | _, _ => false

def beqListH : List HVal → List HVal → Bool
  | [], [] => true
  | v1 :: r1, v2 :: r2 => HVal.beq v1 v2 && beqListH r1 r2
  | _, _ => false

end

/-- The dictionary stored at an address. -/
def heapGet (h : Heap) (a : Nat) : HObj :=
  (h.get? a).getD []

/-- Key lookup on one heap dictionary. -/
def hLookup (d : HObj) (k : String) : Option HVal :=
  (d.find? (fun p => p.1 == k)).map (fun p => p.2)

/-- Python dict assignment d[k] = v on one heap dictionary. -/
def hInsert (d : HObj) (k : String) (v : HVal) : HObj :=
  match d with
  | [] => [(k, v)]
  | (k0, v0) :: rest => if k0 == k then (k, v) :: rest else (k0, v0) :: hInsert rest k v

/-- The in-place mutation h[a][k] = v. -/
def heapSet (h : Heap) (a : Nat) (k : String) (v : HVal) : Heap :=
  h.set a (hInsert (heapGet h a) k v)

/-- Python truthiness in the heap embedding; a referenced dictionary is
truthy when non-empty. -/
def truthyH (h : Heap) : HVal → Bool
  | .str s => s != ""
  | .num n => n != 0
  | .bool b => b
  | .null => false
  | .ref a => !(heapGet h a).isEmpty
  | .list xs => !xs.isEmpty

/-- The included map of the heap embedding: (type, id) tuple keys to the
address of the resource object. -/
abbrev HIncMap := List ((HVal × HVal) × Nat)

/-- Equality of (type, id) tuple keys. -/
def beqKeyH (a b : HVal × HVal) : Bool :=
  HVal.beq a.1 b.1 && HVal.beq a.2 b.2

/-- Lookup included_map.get((t, i)) in the heap embedding. -/
def lookupIdentH (m : HIncMap) (t i : HVal) : Option Nat :=
  (m.find? (fun p => beqKeyH p.1 (t, i))).map (fun p => p.2)

/-- Assignment included_map[t, i] = address, with Python dict semantics. -/
def insertIdentH (m : HIncMap) (k : HVal × HVal) (a : Nat) : HIncMap :=
  match m with
  | [] => [(k, a)]
  | (k0, a0) :: rest => if beqKeyH k0 k then (k, a) :: rest else (k0, a0) :: insertIdentH rest k a

/-- Python v[k] in the heap embedding: KeyError on a missing key of a
referenced dictionary, TypeError on a non-dictionary. -/
def pyIndexH (h : Heap) (v : HVal) (k : String) : Except PyErr HVal :=
  match v with
  | .ref a =>
    match hLookup (heapGet h a) k with
    | some w => .ok w
    | none => .error .keyError
  | _ => .error .typeError

/-- JSONParser.create_naive_included_map in the heap embedding: the included
member of the top-level document dictionary, empty when falsy, then for each
element the assignment included_map[obj[type], obj[id]] = obj, keeping the
address of the element. -/
def create_naive_included_mapH (h : Heap) (top : Nat) : Except PyErr HIncMap := do
  let included := (hLookup (heapGet h top) "included").getD .null
  if !truthyH h included then
    pure []
  else
    match included with
    | .list objs =>
      objs.foldlM (fun m o => do
        let t ← pyIndexH h o "type"
        let i ← pyIndexH h o "id"
        match o with
        | .ref a => pure (insertIdentH m (t, i) a)
        | _ => .error .typeError) []
    | _ => .error .typeError

/-- JSONParser.get_included_object in the heap embedding: a reference whose
dictionary carries type and id members resolves through the map (to the
reference of the stored address) and falls back to itself on a miss; the
non-dict cases are as in the pure embedding. -/
def get_included_objectH (h : Heap) (m : HIncMap) (rel : HVal) : Except PyErr HVal :=
  match rel with
  | .ref a =>
    let d := heapGet h a
    match hLookup d "type", hLookup d "id" with
    | some t, some i =>
      .ok (match lookupIdentH m t i with
        | some ta => .ref ta
        | none => rel)
    | _, _ => .ok rel
  | .str s =>
    if strContains s "type" && strContains s "id" then .error .typeError else .ok rel
  | .list xs =>
    if (xs.any (fun w => HVal.beq w (.str "type"))) && (xs.any (fun w => HVal.beq w (.str "id")))
    then .error .typeError else .ok rel
  | _ => .error .typeError

/-- One relationship entry of the first pass of
JSONParser.create_included_map, as source mutation: the assignment
field_data[data] = get_included_object(naive_map, inner_data) writes through
the reference into the shared entry dictionary. -/
def resolve_entry_dataH (naive : HIncMap) (h : Heap) (fv : HVal) : Except PyErr Heap :=
  match fv with
  | .ref fa =>
    let inner := (hLookup (heapGet h fa) "data").getD .null
    match inner with
    | .ref _ => do
      let r ← get_included_objectH h naive inner
      pure (heapSet h fa "data" r)
    | .list xs => do
      let rs ← xs.mapM (get_included_objectH h naive)
      pure (heapSet h fa "data" (.list rs))
    | _ => pure h
  | _ => .error .attributeError

/-- The first pass of JSONParser.create_included_map for one included
object, mutating the heap through the shared relationship entries. -/
def resolve_objectH (naive : HIncMap) (h : Heap) (a : Nat) : Except PyErr Heap := do
  let rels := (hLookup (heapGet h a) "relationships").getD .null
  if !truthyH h rels then
    pure h
  else
    match rels with
    | .ref ra => (heapGet h ra).foldlM (fun hh p => resolve_entry_dataH naive hh p.2) h
    | _ => .error .attributeError

/-- The whole first pass: one sweep over the naive map entries. -/
def phase1H (naive : HIncMap) (h : Heap) : Except PyErr Heap :=
  naive.foldlM (fun hh p => resolve_objectH naive hh p.2) h

/-- JSONParser.parse_attributes in the heap embedding (translation
disabled): the contents of the attributes dictionary, empty when falsy.  A
truthy non-dictionary value would make the update of the caller fail, folded
here into the typeError case. -/
def parse_attributesH (h : Heap) (a : Nat) : Except PyErr HObj :=
  let attributes := (hLookup (heapGet h a) "attributes").getD .null
  if !truthyH h attributes then
    .ok []
  else
    match attributes with
    | .ref aa => .ok (heapGet h aa)
    | _ => .error .typeError

/-- The second pass of JSONParser.create_included_map for one included
object: a freshly allocated flattened dictionary holding the id entry when
present, the type entry, the attribute entries, and the relationships entry
sharing the reference of the raw object when present. -/
def flatten_includedH (h : Heap) (a : Nat) : Except PyErr (Heap × Nat) := do
  let obj := heapGet h a
  let base : HObj := match hLookup obj "id" with
    | some idv => [("id", idv)]
    | none => []
  let base := hInsert base "type" ((hLookup obj "type").getD .null)
  let attrs ← parse_attributesH h a
  let base := attrs.foldl (fun acc q => hInsert acc q.1 q.2) base
  let base := match hLookup obj "relationships" with
    | some rv => hInsert base "relationships" rv
    | none => base
  pure (h ++ [base], h.length)

/-- JSONParser.create_included_map in the heap embedding: the naive map,
the in-place relationship rewrite of every entry, then the flattening of
every entry into freshly allocated dictionaries. -/
def create_included_mapH (h : Heap) (top : Nat) : Except PyErr (Heap × HIncMap) := do
  let naive ← create_naive_included_mapH h top
  let h1 ← phase1H naive h
  naive.foldlM (fun st p => do
    let (h2, fa) ← flatten_includedH st.1 p.2
    pure (h2, insertIdentH st.2 p.1 fa)) (h1, ([] : HIncMap))

/-- JSONParser.parse_relationships in the heap embedding (translation
disabled), resolving the relationship linkages of the dictionary at the
given address against the flattened included map, into a fresh mapping. -/
def parse_relationshipsH (h : Heap) (imap : HIncMap) (dataAddr : Nat) :
    Except PyErr HObj := do
  let rels := (hLookup (heapGet h dataAddr) "relationships").getD .null
  if !truthyH h rels then
    pure []
  else
    match rels with
    | .ref ra =>
      (heapGet h ra).foldlM (fun acc p =>
        match p.2 with
        | .ref fa =>
          let fd := (hLookup (heapGet h fa) "data").getD .null
          match fd with
          | .ref _ => do
            let c ← get_included_objectH h imap fd
            pure (hInsert acc p.1 c)
          | .list xs => do
            let cs ← xs.mapM (get_included_objectH h imap)
            pure (hInsert acc p.1 (.list cs))
          | .null => pure (hInsert acc p.1 .null)
          | _ => pure acc
        | _ => .error .attributeError) []
    | _ => .error .attributeError

/-!
Lawfulness of the structural equality JVal.beq, and the decidable equality
it induces.
-/

mutual

theorem JVal.beq_iff : ∀ (a b : JVal), JVal.beq a b = true ↔ a = b
  | .str _, .str _ => by simp [JVal.beq]
  | .str _, .num _ => by simp [JVal.beq]
  | .str _, .bool _ => by simp [JVal.beq]
  | .str _, .null => by simp [JVal.beq]
  | .str _, .obj _ => by simp [JVal.beq]
  | .str _, .arr _ => by simp [JVal.beq]
  | .num _, .str _ => by simp [JVal.beq]
  | .num _, .num _ => by simp [JVal.beq]
  | .num _, .bool _ => by simp [JVal.beq]
  | .num _, .null => by simp [JVal.beq]
  | .num _, .obj _ => by simp [JVal.beq]
  | .num _, .arr _ => by simp [JVal.beq]
  | .bool _, .str _ => by simp [JVal.beq]
  | .bool _, .num _ => by simp [JVal.beq]
  | .bool _, .bool _ => by simp [JVal.beq]
  | .bool _, .null => by simp [JVal.beq]
  | .bool _, .obj _ => by simp [JVal.beq]
  | .bool _, .arr _ => by simp [JVal.beq]
  | .null, .str _ => by simp [JVal.beq]
  | .null, .num _ => by simp [JVal.beq]
  | .null, .bool _ => by simp [JVal.beq]
  | .null, .null => by simp [JVal.beq]
  | .null, .obj _ => by simp [JVal.beq]
  | .null, .arr _ => by simp [JVal.beq]
  | .obj _, .str _ => by simp [JVal.beq]
  | .obj _, .num _ => by simp [JVal.beq]
  | .obj _, .bool _ => by simp [JVal.beq]
  | .obj _, .null => by simp [JVal.beq]
  | .obj as, .obj bs => by
    have h := beqObj_iff as bs
    simp [JVal.beq, h]
  | .obj _, .arr _ => by simp [JVal.beq]
  | .arr _, .str _ => by simp [JVal.beq]
  | .arr _, .num _ => by simp [JVal.beq]
  | .arr _, .bool _ => by simp [JVal.beq]
  | .arr _, .null => by simp [JVal.beq]
  | .arr _, .obj _ => by simp [JVal.beq]
  | .arr as, .arr bs => by
    have h := beqArr_iff as bs
    simp [JVal.beq, h]

theorem beqObj_iff : ∀ (a b : List (String × JVal)), beqObj a b = true ↔ a = b
  | [], [] => by simp [beqObj]
  | [], _ :: _ => by simp [beqObj]
  | _ :: _, [] => by simp [beqObj]
  | (k1, v1) :: r1, (k2, v2) :: r2 => by
    have h1 := JVal.beq_iff v1 v2
    have h2 := beqObj_iff r1 r2
    simp [beqObj, h1, h2]

theorem beqArr_iff : ∀ (a b : List JVal), beqArr a b = true ↔ a = b
  | [], [] => by simp [beqArr]
  | [], _ :: _ => by simp [beqArr]
  | _ :: _, [] => by simp [beqArr]
  | v1 :: r1, v2 :: r2 => by
    have h1 := JVal.beq_iff v1 v2
    have h2 := beqArr_iff r1 r2
    simp [beqArr, h1, h2]

end

instance : DecidableEq JVal :=
  fun a b => decidable_of_iff (JVal.beq a b = true) (JVal.beq_iff a b)

theorem beqKey_iff (a b : JVal × JVal) : beqKey a b = true ↔ a = b := by
  cases a; cases b
  simp [beqKey, JVal.beq_iff, Prod.ext_iff]

/-!
Scenario documents.
-/

/-- The compound-document scenario of the spec: an article whose author
relationship points at the person side-loaded in included. -/
def articleDoc : JVal :=
  .obj [
    ("data", .obj [
      ("type", .str "articles"), ("id", .str "1"),
      ("attributes", .obj [("title", .str "T")]),
      ("relationships", .obj [
        ("author", .obj [("data", .obj [("type", .str "people"), ("id", .str "9")])])])]),
    ("included", .arr [.obj [("type", .str "people"), ("id", .str "9"),
      ("attributes", .obj [("name", .str "Dan")])]])]

/-- A mutating request document whose declared type is the first of the
allowed names of a polymorphic endpoint. -/
def polymorphicPostDoc : JVal :=
  .obj [("data", .obj [("type", .str "articles"), ("id", .str "1")])]

/-- A document whose included array holds an element with a type member but
no id member. -/
def missingIdIncludedDoc : JVal :=
  .obj [("data", .null), ("included", .arr [.obj [("type", .str "people")]])]

/-- A resource object with one relationship entry carrying only a meta
member and no data member. -/
def metaOnlyRelDoc : JVal :=
  .obj [("relationships", .obj [("r", .obj [("meta", .str "m")])])]

/-- A relationship-endpoint document whose single resource identifier
object carries an id member that is present but empty. -/
def emptyIdRioDoc : JVal :=
  .obj [("data", .obj [("id", .str ""), ("type", .str "tags")])]

/-- Whether a result is a rest_framework ParseError (the MalformedDocument
error of the spec). -/
def isParseError {A : Type} : Except PyErr A → Bool
  | .error (.parseError _) => true
  | _ => false

/-!
The claim theorems.
-/

/-- C2: on a resource endpoint, a to-one relationship of the primary
resource whose identifier appears in included resolves to the flattened
included entry merging id, type and attributes; on the scenario document the
author relationship of the normalized record is the full flattened person,
not the bare resource identifier. -/
theorem primary_toone_resolves_to_flattened_included :
    parse false id false (.single "articles") "GET" articleDoc
      = .ok (.obj [("id", .str "1"), ("type", .str "articles"), ("title", .str "T"),
          ("author", .obj [("id", .str "9"), ("type", .str "people"), ("name", .str "Dan")])])
    ∧ (JVal.obj [("id", .str "9"), ("type", .str "people"), ("name", .str "Dan")]
        ≠ .obj [("type", .str "people"), ("id", .str "9")]) :=
  ⟨rfl, by decide⟩

/-- C5 (the code bug): on a mutating request to a polymorphic endpoint
allowing the names articles and reports, a document whose declared type is
articles, although among the allowed names, is rejected with Conflict: the
source compares the declared type against the whole list of allowed names
instead of testing membership, so the polymorphic branch always raises, and
its message contradicts the behaviour by printing the declared type among
the allowed names it claims it is not one of. -/
theorem polymorphic_type_check_conflict_bug :
    parse false id false (.multi ["articles", "reports"]) "POST" polymorphicPostDoc
      = .error (.conflict ("The resource object's type (articles) is not the type that " ++
          "constitute the collection represented by the endpoint (one of [articles, reports])."))
    ∧ "articles" ∈ ["articles", "reports"] :=
  ⟨rfl, by decide⟩

/-- C6 counterexample: building the naive included map over an included
element that lacks an id member fails with a KeyError, not with the
MalformedDocument ParseError the claim states. -/
theorem included_missing_id_keyerror_cex :
    create_naive_included_map missingIdIncludedDoc = .error .keyError
    ∧ isParseError (create_naive_included_map missingIdIncludedDoc) = false :=
  ⟨rfl, rfl⟩

/-- C10 counterexample: a relationship entry with no data member at all is
not omitted from the output of parse_relationships; the entry survives with
the value null, because .get returns None for the absent member and the
None branch keeps it. -/
theorem relationship_absent_data_kept_cex :
    parse_relationships false id [] metaOnlyRelDoc = .ok [("r", .null)]
    ∧ pyLookup [("meta", .str "m")] "data" = none :=
  ⟨rfl, rfl⟩

/-- C4 counterexample: on a relationship endpoint, a single resource
identifier object whose id member is present but empty (falsy) is rejected
with ParseError, although the claim states that presence of id and type
suffices for the data to be returned unchanged. -/
theorem relationship_endpoint_present_but_falsy_cex :
    parse false id true (.single "tags") "PATCH" emptyIdRioDoc
      = .error (.parseError "Received data is not a valid JSONAPI Resource Identifier Object")
    ∧ pyLookup [("id", .str ""), ("type", .str "tags")] "id" = some (.str "") :=
  ⟨rfl, rfl⟩

/-- C9: the normalized record is assembled id and type first, and the later
updates with attributes and resolved relationships overwrite them: an
attribute literally named type replaces the declared type in the output
record, and a relationship literally named id replaces the declared id, for
every attribute value v. -/
theorem attribute_relationship_keys_overwrite_id_type : ∀ (v : JVal),
    parse false id false (.single "articles") "GET"
      (.obj [("data", .obj [("type", .str "articles"), ("id", .str "1"),
        ("attributes", .obj [("type", v)]),
        ("relationships", .obj [("id", .obj [("data",
          .obj [("type", .str "people"), ("id", .str "9")])])])])])
    = .ok (.obj [("id", .obj [("type", .str "people"), ("id", .str "9")]), ("type", v)]) := by
  intro v
  rfl

/-!
Reduction helpers for the Except monad and for parse_relationships on a
single-entry relationships mapping.
-/

theorem ok_bind {A B : Type} (a : A) (f : A → Except PyErr B) :
    (Except.ok a : Except PyErr A) >>= f = f a := rfl

theorem err_bind {A B : Type} (e : PyErr) (f : A → Except PyErr B) :
    (Except.error e : Except PyErr A) >>= f = .error e := rfl

theorem pure_eq_ok {A : Type} (a : A) : (pure a : Except PyErr A) = .ok a := rfl

theorem parse_relationships_single_eq (tr : JVal → JVal) (imap : IncMap) (f : String)
    (e : List (String × JVal)) :
    parse_relationships false tr imap (.obj [("relationships", .obj [(f, .obj e)])])
      = match (pyLookup e "data").getD .null with
        | .obj kvs => do
            let c ← get_included_object imap (.obj kvs)
            pure [(f, c)]
        | .arr xs => do
            let cs ← xs.mapM (get_included_object imap)
            pure [(f, .arr cs)]
        | .null => pure [(f, .null)]
        | _ => pure [] := by
  cases hd : pyLookup e "data" with
  | none =>
    simp only [pyLookup] at hd
    simp [parse_relationships, pyGetAttr, pyLookup, List.find?, truthy, hd, ok_bind,
      pure_eq_ok, pyInsert, List.foldlM]
  | some d =>
    simp only [pyLookup] at hd
    cases d <;>
      simp [parse_relationships, pyGetAttr, pyLookup, List.find?, truthy, hd, ok_bind,
        pure_eq_ok, pyInsert, List.foldlM]

/-- C3: a relationship linkage whose identifier misses the included map is
passed through unchanged and raises no error; resolution against the empty
map is the identity on linkages; a document with no included member yields
the empty included map; and a null to-one linkage stays null in the
normalized relationships. -/
theorem unresolved_linkage_passthrough :
    (∀ (imap : IncMap) (kvs : List (String × JVal)) (t i : JVal),
        pyLookup kvs "type" = some t → pyLookup kvs "id" = some i →
        lookupIdent imap t i = none →
        get_included_object imap (.obj kvs) = .ok (.obj kvs))
    ∧ (∀ (kvs : List (String × JVal)), get_included_object [] (.obj kvs) = .ok (.obj kvs))
    ∧ (∀ (fmt : Bool) (tr : JVal → JVal) (top : List (String × JVal)),
        pyLookup top "included" = none →
        create_included_map fmt tr (.obj top) = .ok [])
    ∧ (∀ (tr : JVal → JVal) (imap : IncMap) (f : String),
        parse_relationships false tr imap
            (.obj [("relationships", .obj [(f, .obj [("data", .null)])])])
          = .ok [(f, .null)]) := by
  refine ⟨?_, ?_, ?_, ?_⟩
  · intro imap kvs t i ht hi hmiss
    simp [get_included_object, ht, hi, hmiss]
  · intro kvs
    simp [get_included_object, lookupIdent]
    cases pyLookup kvs "type" <;> cases pyLookup kvs "id" <;> simp
  · intro fmt tr top h
    simp [create_included_map, create_naive_included_map, pyGetAttr, h, truthy, ok_bind,
      pure_eq_ok, List.mapM.loop]
  · intro tr imap f
    rfl

/-- C3 witness: a concrete linkage to an identifier absent from the map is
returned unchanged. -/
theorem unresolved_linkage_passthrough_witness :
    get_included_object [] (.obj [("type", .str "x"), ("id", .str "1")])
      = .ok (.obj [("type", .str "x"), ("id", .str "1")]) :=
  unresolved_linkage_passthrough.1 [] [("type", .str "x"), ("id", .str "1")]
    (.str "x") (.str "1") rfl rfl rfl

/-- C8: the attribute extractor returns the empty mapping when the
attributes member is absent or an empty mapping, and with the key-casing
translation disabled it returns the attributes mapping verbatim. -/
theorem parse_attributes_empty_and_identity :
    (∀ (fmt : Bool) (tr : JVal → JVal) (d : List (String × JVal)),
        pyLookup d "attributes" = none →
        parse_attributes fmt tr (.obj d) = .ok (.obj []))
    ∧ (∀ (fmt : Bool) (tr : JVal → JVal) (d : List (String × JVal)),
        pyLookup d "attributes" = some (.obj []) →
        parse_attributes fmt tr (.obj d) = .ok (.obj []))
    ∧ (∀ (tr : JVal → JVal) (d : List (String × JVal)) (attrs : List (String × JVal)),
        pyLookup d "attributes" = some (.obj attrs) →
        parse_attributes false tr (.obj d) = .ok (.obj attrs)) := by
  refine ⟨?_, ?_, ?_⟩
  · intro fmt tr d h
    simp [parse_attributes, pyGetAttr, h, truthy, ok_bind, pure_eq_ok]
  · intro fmt tr d h
    simp [parse_attributes, pyGetAttr, h, truthy, ok_bind, pure_eq_ok]
  · intro tr d attrs h
    cases attrs with
    | nil => simp [parse_attributes, pyGetAttr, h, truthy, ok_bind, pure_eq_ok]
    | cons q r => simp [parse_attributes, pyGetAttr, h, truthy, ok_bind, pure_eq_ok]

/-- C8 witness: with translation disabled a concrete non-empty attributes
mapping passes through verbatim. -/
theorem parse_attributes_empty_and_identity_witness :
    parse_attributes false id (.obj [("attributes", .obj [("a", .num 1)])])
      = .ok (.obj [("a", .num 1)]) :=
  parse_attributes_empty_and_identity.2.2 id [("attributes", .obj [("a", .num 1)])]
    [("a", .num 1)] rfl

/-- C10 as amended: a relationship entry contributes to the normalized
record exactly through its data member (its meta and every other member are
discarded); an entry whose data is a scalar other than null is omitted; an
entry whose data member is absent is kept with the value null (not
omitted), exactly as a null linkage is. -/
theorem relationship_entry_survival_amended :
    (∀ (tr : JVal → JVal) (imap : IncMap) (f : String) (e1 e2 : List (String × JVal)),
        pyLookup e1 "data" = pyLookup e2 "data" →
        parse_relationships false tr imap (.obj [("relationships", .obj [(f, .obj e1)])])
          = parse_relationships false tr imap (.obj [("relationships", .obj [(f, .obj e2)])]))
    ∧ (∀ (tr : JVal → JVal) (imap : IncMap) (f : String) (e : List (String × JVal)) (d : JVal),
        pyLookup e "data" = some d →
        (∀ kvs, d ≠ .obj kvs) → (∀ xs, d ≠ .arr xs) → d ≠ .null →
        parse_relationships false tr imap (.obj [("relationships", .obj [(f, .obj e)])])
          = .ok [])
    ∧ (∀ (tr : JVal → JVal) (imap : IncMap) (f : String) (e : List (String × JVal)),
        pyLookup e "data" = none →
        parse_relationships false tr imap (.obj [("relationships", .obj [(f, .obj e)])])
          = .ok [(f, .null)])
    ∧ (∀ (tr : JVal → JVal) (imap : IncMap) (f : String) (e : List (String × JVal)),
        pyLookup e "data" = some .null →
        parse_relationships false tr imap (.obj [("relationships", .obj [(f, .obj e)])])
          = .ok [(f, .null)]) := by
  refine ⟨?_, ?_, ?_, ?_⟩
  · intro tr imap f e1 e2 h
    rw [parse_relationships_single_eq, parse_relationships_single_eq, h]
  · intro tr imap f e d h hobj harr hnull
    rw [parse_relationships_single_eq, h]
    cases d with
    | obj kvs => exact absurd rfl (hobj kvs)
    | arr xs => exact absurd rfl (harr xs)
    | null => exact absurd rfl hnull
    | str s => rfl
    | num n => rfl
    | bool b => rfl
  · intro tr imap f e h
    rw [parse_relationships_single_eq, h]
    rfl
  · intro tr imap f e h
    rw [parse_relationships_single_eq, h]
    rfl

/-- C10 witness: an entry whose data member is a string is omitted, and two
entries agreeing on data while differing on meta parse the same. -/
theorem relationship_entry_survival_amended_witness :
    parse_relationships false id []
        (.obj [("relationships", .obj [("r", .obj [("data", .str "x")])])])
      = .ok []
    ∧ parse_relationships false id []
        (.obj [("relationships", .obj [("r", .obj [("data", .null), ("meta", .str "m")])])])
      = parse_relationships false id []
          (.obj [("relationships", .obj [("r", .obj [("data", .null)])])]) :=
  ⟨relationship_entry_survival_amended.2.1 id [] "r" [("data", .str "x")] (.str "x") rfl
      (fun _ h => JVal.noConfusion h) (fun _ h => JVal.noConfusion h)
      (fun h => JVal.noConfusion h),
    relationship_entry_survival_amended.1 id [] "r" [("data", .null), ("meta", .str "m")]
      [("data", .null)] rfl⟩

/-!
Lemmas about the relationship-endpoint identifier check.
-/

theorem check_rios_ok : ∀ (ds : List JVal),
    (∀ rio ∈ ds, ∃ kvs, rio = JVal.obj kvs ∧
        (truthy ((pyLookup kvs "id").getD .null) && truthy ((pyLookup kvs "type").getD .null))
          = true) →
    check_rios ds = .ok () := by
  intro ds
  induction ds with
  | nil => intro _; rfl
  | cons rio rest ih =>
    intro h
    obtain ⟨kvs, hk, hgood⟩ := h rio (by simp)
    subst hk
    simp only [check_rios, pyGetAttr, ok_bind]
    rw [hgood]
    simpa using ih (fun r hr => h r (by simp [hr]))

theorem check_rios_err : ∀ (ds : List JVal),
    (∀ rio ∈ ds, ∃ kvs, rio = JVal.obj kvs) →
    (∃ rio ∈ ds, ∃ kvs, rio = JVal.obj kvs ∧
        (truthy ((pyLookup kvs "id").getD .null) && truthy ((pyLookup kvs "type").getD .null))
          = false) →
    check_rios ds = .error (.parseError
      "Received data contains one or more malformed JSONAPI Resource Identifier Object(s)") := by
  intro ds
  induction ds with
  | nil => intro _ hex; simp at hex
  | cons rio rest ih =>
    intro hall hex
    obtain ⟨kvs, hk⟩ := hall rio (by simp)
    subst hk
    cases hcond : (truthy ((pyLookup kvs "id").getD .null)
        && truthy ((pyLookup kvs "type").getD .null)) with
    | false =>
      simp only [check_rios, pyGetAttr, ok_bind]
      rw [hcond]
      simp
    | true =>
      simp only [check_rios, pyGetAttr, ok_bind]
      rw [hcond]
      simp only [Bool.not_true, Bool.false_eq_true, if_false]
      apply ih
      · intro r hr; exact hall r (by simp [hr])
      · obtain ⟨r2, hr2, kvs2, hk2, hbad⟩ := hex
        rcases (by simpa using hr2 : r2 = JVal.obj kvs ∨ r2 ∈ rest) with hcase | hcase
        · exfalso
          rw [hcase] at hk2
          injection hk2 with h2
          rw [h2.symm] at hbad
          rw [hbad] at hcond
          exact Bool.false_ne_true hcond
        · exact ⟨r2, hcase, kvs2, hk2, hbad⟩

/-- C4 as amended: on a relationship endpoint, a single resource identifier
object whose id and type are present and truthy (or a list of such objects)
is returned unchanged, with no attribute extraction, no index building and
no relationship resolution; an element whose id or type is missing or falsy
fails with the MalformedDocument ParseError.  Presence alone is not enough:
the source tests truthiness, so an empty, zero or null id also fails. -/
theorem relationship_endpoint_identifier_amended :
    (∀ (fmt : Bool) (tr : JVal → JVal) (rn : ResName) (method : String)
        (top : List (String × JVal)) (d : List (String × JVal)),
        pyLookup top "data" = some (.obj d) →
        truthy ((pyLookup d "id").getD .null) = true →
        truthy ((pyLookup d "type").getD .null) = true →
        parse fmt tr true rn method (.obj top) = .ok (.obj d))
    ∧ (∀ (fmt : Bool) (tr : JVal → JVal) (rn : ResName) (method : String)
        (top : List (String × JVal)) (d : List (String × JVal)),
        pyLookup top "data" = some (.obj d) →
        (truthy ((pyLookup d "id").getD .null) && truthy ((pyLookup d "type").getD .null))
          = false →
        parse fmt tr true rn method (.obj top)
          = .error (.parseError "Received data is not a valid JSONAPI Resource Identifier Object"))
    ∧ (∀ (fmt : Bool) (tr : JVal → JVal) (rn : ResName) (method : String)
        (top : List (String × JVal)) (ds : List JVal),
        pyLookup top "data" = some (.arr ds) →
        (∀ rio ∈ ds, ∃ kvs, rio = JVal.obj kvs ∧
            (truthy ((pyLookup kvs "id").getD .null) && truthy ((pyLookup kvs "type").getD .null))
              = true) →
        parse fmt tr true rn method (.obj top) = .ok (.arr ds))
    ∧ (∀ (fmt : Bool) (tr : JVal → JVal) (rn : ResName) (method : String)
        (top : List (String × JVal)) (ds : List JVal),
        pyLookup top "data" = some (.arr ds) →
        (∀ rio ∈ ds, ∃ kvs, rio = JVal.obj kvs) →
        (∃ rio ∈ ds, ∃ kvs, rio = JVal.obj kvs ∧
            (truthy ((pyLookup kvs "id").getD .null) && truthy ((pyLookup kvs "type").getD .null))
              = false) →
        parse fmt tr true rn method (.obj top)
          = .error (.parseError
              "Received data contains one or more malformed JSONAPI Resource Identifier Object(s)")) := by
  refine ⟨?_, ?_, ?_, ?_⟩
  · intro fmt tr rn method top d h hid hty
    simp only [parse, h, pyGetAttr, ok_bind]
    rw [hid, hty]
    rfl
  · intro fmt tr rn method top d h hcond
    simp only [parse, h, pyGetAttr, ok_bind]
    rw [hcond]
    rfl
  · intro fmt tr rn method top ds h hall
    simp only [parse, h]
    rw [check_rios_ok ds hall]
    rfl
  · intro fmt tr rn method top ds h hall hex
    simp only [parse, h]
    rw [check_rios_err ds hall hex]
    rfl

/-- C4 witness: a valid identifier document on a relationship endpoint is
returned unchanged even though its included array is malformed, showing
that no included-map building or resolution takes place. -/
theorem relationship_endpoint_identifier_amended_witness :
    parse false id true (.single "tags") "PATCH"
        (.obj [("data", .obj [("id", .str "1"), ("type", .str "tags")]),
          ("included", .arr [.obj [("type", .str "people")]])])
      = .ok (.obj [("id", .str "1"), ("type", .str "tags")]) :=
  relationship_endpoint_identifier_amended.1 false id (.single "tags") "PATCH"
    [("data", .obj [("id", .str "1"), ("type", .str "tags")]),
      ("included", .arr [.obj [("type", .str "people")]])]
    [("id", .str "1"), ("type", .str "tags")] rfl rfl rfl

theorem naive_fold_keyerror : ∀ (objs : List JVal) (m : IncMap),
    (∀ o ∈ objs, ∃ kvs, o = JVal.obj kvs) →
    (∃ o ∈ objs, ∃ kvs, o = JVal.obj kvs ∧
        (pyLookup kvs "type" = none ∨ pyLookup kvs "id" = none)) →
    naive_fold m objs = .error .keyError := by
  intro objs
  induction objs with
  | nil => intro m _ hex; simp at hex
  | cons o rest ih =>
    intro m hall hex
    obtain ⟨kvs, hk⟩ := hall o (by simp)
    subst hk
    cases ht : pyLookup kvs "type" with
    | none => simp [naive_fold, pyIndex, ht, err_bind]
    | some t =>
      cases hi : pyLookup kvs "id" with
      | none => simp [naive_fold, pyIndex, ht, hi, ok_bind, err_bind]
      | some i =>
        simp only [naive_fold, pyIndex, ht, hi, ok_bind]
        apply ih
        · intro r hr; exact hall r (by simp [hr])
        · obtain ⟨r2, hr2, kvs2, hk2, hmiss⟩ := hex
          rcases (by simpa using hr2 : r2 = JVal.obj kvs ∨ r2 ∈ rest) with hcase | hcase
          · exfalso
            rw [hcase] at hk2
            injection hk2 with h2
            rw [h2.symm] at hmiss
            rcases hmiss with hm | hm
            · rw [hm] at ht; exact Option.noConfusion ht
            · rw [hm] at hi; exact Option.noConfusion hi
          · exact ⟨r2, hcase, kvs2, hk2, hmiss⟩

/-- C6 as amended: when an element of the included array lacks a type or an
id member, building the naive included map fails with the untyped KeyError
of the missing dictionary subscript, not with a MalformedDocument
ParseError. -/
theorem included_missing_id_keyerror :
    ∀ (top : List (String × JVal)) (objs : List JVal),
      pyLookup top "included" = some (.arr objs) →
      (∀ o ∈ objs, ∃ kvs, o = JVal.obj kvs) →
      (∃ o ∈ objs, ∃ kvs, o = JVal.obj kvs ∧
          (pyLookup kvs "type" = none ∨ pyLookup kvs "id" = none)) →
      create_naive_included_map (.obj top) = .error .keyError := by
  intro top objs h hall hex
  cases objs with
  | nil => simp at hex
  | cons o rest =>
    simp [create_naive_included_map, pyGetAttr, h, ok_bind, truthy,
      naive_fold_keyerror (o :: rest) [] hall hex]

/-- C6 witness: an included array whose second element lacks a type member
makes the naive map build fail with KeyError. -/
theorem included_missing_id_keyerror_witness :
    create_naive_included_map
        (.obj [("included", .arr [.obj [("type", .str "a"), ("id", .str "1")],
          .obj [("id", .str "2")]])])
      = .error .keyError :=
  included_missing_id_keyerror
    [("included", .arr [.obj [("type", .str "a"), ("id", .str "1")], .obj [("id", .str "2")]])]
    [.obj [("type", .str "a"), ("id", .str "1")], .obj [("id", .str "2")]]
    rfl
    (by
      intro o ho
      rcases (by simpa using ho :
          o = JVal.obj [("type", .str "a"), ("id", .str "1")]
          ∨ o = JVal.obj [("id", .str "2")]) with hc | hc
      · exact ⟨[("type", .str "a"), ("id", .str "1")], hc⟩
      · exact ⟨[("id", .str "2")], hc⟩)
    ⟨.obj [("id", .str "2")], by simp, [("id", .str "2")], rfl, Or.inl rfl⟩

/-!
Last-write-wins of the naive included map.
-/

theorem beqKey_eq_decide (a b : JVal × JVal) : beqKey a b = decide (a = b) := by
  cases hb : beqKey a b with
  | true => simp [(beqKey_iff a b).mp hb]
  | false =>
    have hne : a ≠ b := by
      intro h
      rw [h, (beqKey_iff b b).mpr rfl] at hb
      exact absurd hb (by simp)
    simp [hne]

/-- Whether an included element carries exactly the identifier (t, i). -/
def matchesIdent (t i : JVal) (o : JVal) : Bool :=
  match o with
  | .obj kvs =>
    match pyLookup kvs "type", pyLookup kvs "id" with
    | some t0, some i0 => JVal.beq t0 t && JVal.beq i0 i
    | _, _ => false
  | _ => false

/-- The last element of the included array carrying the identifier (t, i). -/
def lastIncluded (objs : List JVal) (t i : JVal) : Option JVal :=
  objs.reverse.find? (matchesIdent t i)

theorem lookupIdent_insertIdent (m : IncMap) (k : JVal × JVal) (v : JVal) (t i : JVal) :
    lookupIdent (insertIdent m k v) t i
      = if k = (t, i) then some v else lookupIdent m t i := by
  induction m with
  | nil =>
    simp only [insertIdent, lookupIdent, List.find?, beqKey_eq_decide]
    by_cases h : k = (t, i) <;> simp [h]
  | cons p rest ih =>
    obtain ⟨k0, v0⟩ := p
    simp only [insertIdent]
    by_cases hk : k0 = k
    · rw [if_pos ((beqKey_iff k0 k).mpr hk)]
      simp only [lookupIdent, List.find?, beqKey_eq_decide]
      subst hk
      by_cases h : k0 = (t, i) <;> simp [h]
    · rw [if_neg (fun hb => hk ((beqKey_iff k0 k).mp hb))]
      simp only [lookupIdent, List.find?, beqKey_eq_decide] at ih ⊢
      by_cases h0 : k0 = (t, i)
      · by_cases h : k = (t, i)
        · exact absurd (h.trans h0.symm) (fun e => hk e.symm)
        · simp [h0, h]
      · simp only [h0, decide_eq_false h0]
        exact ih

theorem naive_fold_lookup : ∀ (objs : List JVal) (m0 m : IncMap) (t i : JVal),
    naive_fold m0 objs = .ok m →
    lookupIdent m t i = (lastIncluded objs t i).or (lookupIdent m0 t i) := by
  intro objs
  induction objs with
  | nil =>
    intro m0 m t i h
    have hm : m0 = m := by simpa [naive_fold] using h
    subst hm
    simp [lastIncluded]
  | cons o rest ih =>
    intro m0 m t i h
    cases hT : pyIndex o "type" with
    | error e => rw [naive_fold, hT, err_bind] at h; exact Except.noConfusion h
    | ok t0 =>
      cases hI : pyIndex o "id" with
      | error e =>
        rw [naive_fold, hT, ok_bind, hI, err_bind] at h
        exact Except.noConfusion h
      | ok i0 =>
        have h' : naive_fold (insertIdent m0 (t0, i0) o) rest = .ok m := by
          rw [naive_fold, hT, ok_bind, hI, ok_bind] at h
          exact h
        rw [ih _ m t i h', lookupIdent_insertIdent]
        obtain ⟨kvs, hk, hT', hI'⟩ : ∃ kvs, o = JVal.obj kvs
            ∧ pyLookup kvs "type" = some t0 ∧ pyLookup kvs "id" = some i0 := by
          cases o with
          | obj kvs =>
            refine ⟨kvs, rfl, ?_, ?_⟩
            · cases hpt : pyLookup kvs "type" with
              | none => rw [pyIndex, hpt] at hT; exact Except.noConfusion hT
              | some w =>
                rw [pyIndex, hpt] at hT
                exact congrArg some (Except.ok.inj hT)
            · cases hpi : pyLookup kvs "id" with
              | none => rw [pyIndex, hpi] at hI; exact Except.noConfusion hI
              | some w =>
                rw [pyIndex, hpi] at hI
                exact congrArg some (Except.ok.inj hI)
          | str s => exact absurd hT (by simp [pyIndex])
          | num n => exact absurd hT (by simp [pyIndex])
          | bool b => exact absurd hT (by simp [pyIndex])
          | null => exact absurd hT (by simp [pyIndex])
          | arr xs => exact absurd hT (by simp [pyIndex])
        subst hk
        have hmatch : matchesIdent t i (JVal.obj kvs) = decide ((t0, i0) = (t, i)) := by
          rw [matchesIdent]
          rw [hT', hI']
          exact beqKey_eq_decide (t0, i0) (t, i)
        rw [lastIncluded, lastIncluded]
        rw [show (JVal.obj kvs :: rest).reverse = rest.reverse ++ [JVal.obj kvs] by simp]
        rw [List.find?_append]
        by_cases hkk : (t0, i0) = ((t : JVal), (i : JVal))
        · rw [if_pos hkk]
          cases hL : rest.reverse.find? (matchesIdent t i) with
          | some x => simp
          | none =>
            simp only [List.find?, hmatch, decide_eq_true hkk, Option.none_or]
            simp
        · rw [if_neg hkk]
          cases hL : rest.reverse.find? (matchesIdent t i) with
          | some x => simp
          | none =>
            simp only [List.find?, hmatch, decide_eq_false hkk, Option.none_or]

/-- C7: when the document carries an included array, the naive included map
maps every identifier to the last element of the array carrying that
identifier (last-write-wins), deterministically: the map is a function of
the input document alone. -/
theorem naive_included_map_last_write_wins :
    ∀ (top : List (String × JVal)) (objs : List JVal) (m : IncMap) (t i : JVal),
      pyLookup top "included" = some (.arr objs) →
      create_naive_included_map (.obj top) = .ok m →
      lookupIdent m t i = lastIncluded objs t i := by
  intro top objs m t i h hok
  cases objs with
  | nil =>
    have hm : m = [] := by
      have := hok
      simp [create_naive_included_map, pyGetAttr, h, ok_bind, truthy, pure_eq_ok] at this
      exact this
    subst hm
    rfl
  | cons o rest =>
    have h' : naive_fold [] (o :: rest) = .ok m := by
      have := hok
      simp only [create_naive_included_map, pyGetAttr, h, ok_bind, Option.getD_some] at this
      simpa [truthy] using this
    rw [naive_fold_lookup _ _ _ _ _ h']
    have hnil : lookupIdent [] t i = none := rfl
    rw [hnil, Option.or_none]

/-- An included element used twice with one attribute value. -/
def dupA1 : JVal :=
  .obj [("type", .str "a"), ("id", .str "1"), ("attributes", .obj [("v", .num 1)])]

/-- A second included element with the same identifier as dupA1 and another
attribute value. -/
def dupA2 : JVal :=
  .obj [("type", .str "a"), ("id", .str "1"), ("attributes", .obj [("v", .num 2)])]

/-- A document whose included array holds two elements with one and the
same identifier. -/
def dupIncludedDoc : JVal :=
  .obj [("data", .null), ("included", .arr [dupA1, dupA2])]

/-- C7 witness: on the duplicate document, the naive map holds the later
element, which is what lastIncluded picks. -/
theorem naive_included_map_last_write_wins_witness :
    create_naive_included_map dupIncludedDoc = .ok [((.str "a", .str "1"), dupA2)]
    ∧ lookupIdent [((.str "a", .str "1"), dupA2)] (.str "a") (.str "1")
        = lastIncluded [dupA1, dupA2] (.str "a") (.str "1")
    ∧ lastIncluded [dupA1, dupA2] (.str "a") (.str "1") = some dupA2 :=
  ⟨rfl,
    naive_included_map_last_write_wins
      [("data", .null), ("included", .arr [dupA1, dupA2])]
      [dupA1, dupA2] [((.str "a", .str "1"), dupA2)] (.str "a") (.str "1") rfl rfl,
    rfl⟩

/-!
The identity claims of the compound-document resolver, on the two scenario
documents, in the heap embedding.
-/

/-- The heap of the cycle scenario of the spec: two included resources that
reference each other through their peer relationships.  Addresses: 0 the
raw a resource, 1 its relationships dictionary, 2 its peer entry, 3 the
(b, 2) identifier, 4 the raw b resource, 5 its relationships dictionary,
6 its peer entry, 7 the (a, 1) identifier, 8 the top-level document. -/
def cycleHeap : Heap := [
  [("type", .str "a"), ("id", .str "1"), ("relationships", .ref 1)],
  [("peer", .ref 2)],
  [("data", .ref 3)],
  [("type", .str "b"), ("id", .str "2")],
  [("type", .str "b"), ("id", .str "2"), ("relationships", .ref 5)],
  [("peer", .ref 6)],
  [("data", .ref 7)],
  [("type", .str "a"), ("id", .str "1")],
  [("data", .null), ("included", .list [.ref 0, .ref 4])]]

/-- The heap of the two-level document: the primary resource at address 6
carries two relationships x and y both pointing at the identifier (b, 2),
and included holds the resource a (whose peer also points at (b, 2)) and
the resource b with one attribute.  Addresses: 0 raw a, 1 its
relationships, 2 its peer entry, 3 its (b, 2) identifier, 4 raw b, 5 the
attributes of b, 6 the primary resource, 7 its relationships, 8 and 9 its
two entries, 10 and 11 their (b, 2) identifiers, 12 the top-level
document. -/
def cexHeap : Heap := [
  [("type", .str "a"), ("id", .str "1"), ("relationships", .ref 1)],
  [("peer", .ref 2)],
  [("data", .ref 3)],
  [("type", .str "b"), ("id", .str "2")],
  [("type", .str "b"), ("id", .str "2"), ("attributes", .ref 5)],
  [("name", .str "N")],
  [("type", .str "articles"), ("id", .str "7"), ("relationships", .ref 7)],
  [("x", .ref 8), ("y", .ref 9)],
  [("data", .ref 10)],
  [("data", .ref 11)],
  [("type", .str "b"), ("id", .str "2")],
  [("type", .str "b"), ("id", .str "2")],
  [("data", .ref 6), ("included", .list [.ref 0, .ref 4])]]

/-- The run of JSONParser.create_included_map over the cycle document. -/
def cycleRun : Except PyErr (Heap × HIncMap) :=
  create_included_mapH cycleHeap 8

/-- The heap after the cycle run. -/
def cycleHeapOut : Heap :=
  match cycleRun with
  | .ok (h, _) => h
  | .error _ => []

/-- The run of create_included_map followed by parse_relationships of the
primary resource over the two-level document. -/
def cexRun : Except PyErr (HObj × Heap) := do
  let (h, m) ← create_included_mapH cexHeap 12
  let rels ← parse_relationshipsH h m 6
  pure (rels, h)

/-- The resolved primary relationships of the two-level document. -/
def cexRelsOut : HObj :=
  match cexRun with
  | .ok (r, _) => r
  | .error _ => []

/-- The heap after the two-level run. -/
def cexHeapOut : Heap :=
  match cexRun with
  | .ok (_, h) => h
  | .error _ => []

/-- The data member of the relationship-entry dictionary at an address: the
resolved linkage stored there. -/
def entryData (h : Heap) (a : Nat) : HVal :=
  (hLookup (heapGet h a) "data").getD .null

/-- Follow the peer relationship of the object a linkage value references:
the resolved peer of that object. -/
def peerData (h : Heap) (v : HVal) : HVal :=
  match v with
  | .ref a =>
    match hLookup (heapGet h a) "relationships" with
    | some (.ref ra) =>
      match hLookup (heapGet h ra) "peer" with
      | some (.ref ea) => entryData h ea
      | _ => .null
    | _ => .null
  | _ => .null

/-- C1 counterexample: on the two-level document, the primary linkages to
the identifier (b, 2) resolve to the freshly allocated flattened object at
address 14, while the linkage of the included resource a to the very same
identifier resolves to the raw included object at address 4: two distinct
objects, which even differ structurally (the raw one keeps its attributes
wrapper, the flattened one carries the attribute at top level), refuting
that every linkage in the document resolves to one and the same shared
object. -/
theorem resolver_shared_objects_cex :
    cexRelsOut = [("x", .ref 14), ("y", .ref 14)]
    ∧ entryData cexHeapOut 2 = .ref 4
    ∧ (14 : Nat) ≠ 4
    ∧ hLookup (heapGet cexHeapOut 4) "attributes" = some (.ref 5)
    ∧ hLookup (heapGet cexHeapOut 14) "attributes" = none
    ∧ hLookup (heapGet cexHeapOut 14) "name" = some (.str "N") :=
  ⟨rfl, rfl, by decide, rfl, rfl, rfl⟩

/-- C1 as amended: within one level the resolver does share one canonical
object per identifier, and the cycle closes without recursion, but the
canonical object of the primary level (the freshly flattened entry) is not
the canonical object of the included level (the raw object mutated in
place).  On the cycle document the resolved peer of a is the raw b object,
the resolved peer of b is the raw a object, and the peer of the resolved
peer of b is exactly the object the peer of a is (address equality, the
cycle closed); on the two-level document both primary linkages to (b, 2)
resolve to one and the same flattened object. -/
theorem resolver_shared_objects_amended :
    entryData cycleHeapOut 2 = .ref 4
    ∧ entryData cycleHeapOut 6 = .ref 0
    ∧ peerData cycleHeapOut (entryData cycleHeapOut 6) = entryData cycleHeapOut 2
    ∧ cexRelsOut = [("x", .ref 14), ("y", .ref 14)]
    ∧ entryData cexHeapOut 2 = .ref 4 :=
  ⟨rfl, rfl, rfl, rfl, rfl⟩
